import Mathlib

/-!
Verification development for the `finlib` market-microstructure library.

The development shallowly embeds the two modules the claims concern:

* `finlib/pin_measure.py` — the EKOP probability-of-informed-trading
  estimator (`pin_ekop`) and its inner negative log-likelihood
  (`neg_log_likelihood`).
* `finlib/investment_metrics.py` — `cagr`, `roi` and `sharpe_ratio`.

Floating-point arithmetic is idealised over `ℝ`.  The external optimizer
(`scipy.optimize.minimize`) is not part of the repository; `pin_ekop` is
therefore parameterised over an abstract optimizer function that receives
exactly the data the source passes to `minimize`: the objective closure,
the initial guess and the bounds tuple.  Python exceptions are modelled by
an `Except` / sum-type result channel; the source body of `pin_ekop`
contains no `raise` statement, so every path of its embedding is `.ok`.
-/

/-- A parameter vector `(alpha, mu, epsilon_b, epsilon_s)`, as unpacked by
`alpha, mu, epsilon_b, epsilon_s = params` in the source. -/
abbrev ParamVec : Type := ℝ × ℝ × ℝ × ℝ

/-- One box constraint `(lower, upper)`; `none` stands for Python `None`
(no upper bound). -/
abbrev Bound : Type := ℝ × Option ℝ

/-- The bounds tuple `((0, 1), (0, None), (0, None), (0, None))`. -/
abbrev Bnds : Type := Bound × Bound × Bound × Bound

/-- Abstract interface of `scipy.optimize.minimize(...).x`: from an
objective, an initial guess and bounds, produce a parameter vector. -/
abbrev Optimizer : Type := (ParamVec → ℝ) → ParamVec → Bnds → ParamVec

/-- Error taxonomy named by the specification for `pin_ekop`.  The source
never constructs either error; the type exists so that the spec's
error-raising claims can be stated and settled against the embedding. -/
inductive PinError : Type
  | invalidInput : PinError
  | estimationDegenerate : PinError

/-- The loop body of `neg_log_likelihood` for one period with buy count
`b` and sell count `s` (the non-skipped branch): the four Poisson-derived
terms with `np.exp(gammaln(n + 1))` embedded as `exp (log (Gamma (n + 1)))`,
combined into the period log-likelihood contribution. -/
noncomputable def period_log_term (alpha mu epsilon_b epsilon_s : ℝ)
    (b s : ℕ) : ℝ :=
  let term1 := Real.exp (-mu - epsilon_b) * (mu + epsilon_b) ^ b /
    Real.exp (Real.log (Real.Gamma ((b : ℝ) + 1)))
  let term2 := Real.exp (-epsilon_s) * epsilon_s ^ s /
    Real.exp (Real.log (Real.Gamma ((s : ℝ) + 1)))
  let term3 := Real.exp (-epsilon_b) * epsilon_b ^ b /
    Real.exp (Real.log (Real.Gamma ((b : ℝ) + 1)))
  let term4 := Real.exp (-mu - epsilon_s) * (mu + epsilon_s) ^ s /
    Real.exp (Real.log (Real.Gamma ((s : ℝ) + 1)))
  Real.log (alpha * (term1 * term2 + term3 * term4) +
    (1 - alpha) * (term3 * term2))

/-- Embedding of the inner function `neg_log_likelihood(params, buys, sells)`:
`ll` starts at `0`, the loop runs over `zip(buys, sells)`, each iteration
first checks `alpha == 0 or mu == 0 or epsilon_b == 0 or epsilon_s == 0`
and `continue`s (skips) if so, otherwise adds the period log term; the
function returns `-ll`. -/
noncomputable def neg_log_likelihood (params : ParamVec)
    (buys sells : List ℕ) : ℝ :=
  match params with
  | (alpha, mu, epsilon_b, epsilon_s) =>
    -((buys.zip sells).foldl
        (fun ll bs =>
          if alpha = 0 ∨ mu = 0 ∨ epsilon_b = 0 ∨ epsilon_s = 0 then ll
          else ll + period_log_term alpha mu epsilon_b epsilon_s bs.1 bs.2)
        0)

/-- The fixed initial guess `np.array([0.2, 1, 1, 1])`. -/
noncomputable def params_init : ParamVec := (0.2, 1, 1, 1)

/-- The bounds `bnds = ((0, 1), (0, None), (0, None), (0, None))`. -/
noncomputable def bnds : Bnds :=
  ((0, some 1), (0, none), (0, none), (0, none))

/-- Embedding of `pin_ekop(buys, sells)`, parameterised over the external
optimizer: it invokes the optimizer once on the negative log-likelihood
closure with `params_init` and `bnds`, unpacks the fitted parameters and
returns `alpha_hat * mu_hat / (alpha_hat * mu_hat + epsilon_b_hat +
epsilon_s_hat)`.  The source performs no input validation and no
degeneracy guard, so no path constructs a `PinError`. -/
noncomputable def pin_ekop (optimize : Optimizer)
    (buys sells : List ℕ) : Except PinError ℝ :=
  let result := optimize
    (fun params => neg_log_likelihood params buys sells) params_init bnds
  match result with
  | (alpha_hat, mu_hat, epsilon_b_hat, epsilon_s_hat) =>
    Except.ok (alpha_hat * mu_hat /
      (alpha_hat * mu_hat + epsilon_b_hat + epsilon_s_hat))

/-- Result channel of the investment-metric functions: they return either
a float or (when their `except` clause catches the internally raised
exception) a formatted error-message string. -/
inductive CalcResult : Type
  | val : ℝ → CalcResult
  | err : String → CalcResult

/-- The string `f"CAGR calculation error: {e}"` for the `ValueError`
raised when an input is non-positive. -/
def cagr_error_message : String :=
  "CAGR calculation error: All inputs must be positive numbers."

/-- The string `f"ROI calculation error: {e}"` for the `ZeroDivisionError`
raised when the cost is zero. -/
def roi_error_message : String :=
  "ROI calculation error: Cost of investment cannot be zero."

/-- The string `f"Sharpe Ratio error: {e}"` for the `ValueError` raised
when the standard deviation of the returns is zero. -/
def sharpe_error_message : String :=
  "Sharpe Ratio error: Standard deviation of returns is zero."

/-- Embedding of `cagr(start_value, end_value, periods)`: the `try` block
raises `ValueError` when an input is non-positive, the `except` clause
turns it into the message string; otherwise the CAGR formula is
returned. -/
noncomputable def cagr (start_value end_value periods : ℝ) : CalcResult :=
  if start_value ≤ 0 ∨ end_value ≤ 0 ∨ periods ≤ 0 then
    CalcResult.err cagr_error_message
  else
    CalcResult.val ((end_value / start_value) ^ ((1 : ℝ) / periods) - 1)

/-- Embedding of `roi(gain, cost)`: `ZeroDivisionError` on zero cost is
caught and rendered as the message string; otherwise
`(gain - cost) / cost` is returned. -/
noncomputable def roi (gain cost : ℝ) : CalcResult :=
  if cost = 0 then
    CalcResult.err roi_error_message
  else
    CalcResult.val ((gain - cost) / cost)

/-- `np.mean`: sum divided by length (junk value `0` at the empty list,
standing in for numpy's NaN, which never feeds a non-error result in the
claims below). -/
noncomputable def np_mean (xs : List ℝ) : ℝ := xs.sum / xs.length

/-- `np.std`: population standard deviation, the square root of the mean
squared deviation from the mean. -/
noncomputable def np_std (xs : List ℝ) : ℝ :=
  Real.sqrt (np_mean (xs.map (fun x => (x - np_mean xs) ^ 2)))

/-- Embedding of `sharpe_ratio(returns, risk_free_rate)` (source default
`risk_free_rate=0.01`): excess returns over the risk-free rate, standard
deviation of the raw returns, `ValueError` caught and rendered as the
message string when that deviation is zero, otherwise the mean excess
return divided by the standard deviation. -/
noncomputable def sharpe_ratio (returns : List ℝ)
    (risk_free_rate : ℝ) : CalcResult :=
  let excess_returns := returns.map (fun r => r - risk_free_rate)
  let std_dev := np_std returns
  if std_dev = 0 then
    CalcResult.err sharpe_error_message
  else
    CalcResult.val (np_mean excess_returns / std_dev)

/-! ## Helper lemmas -/

/-- When some parameter is exactly zero, every iteration of the
likelihood loop takes the skip branch, so the fold returns its
accumulator unchanged. -/
theorem nll_foldl_skip (alpha mu epsilon_b epsilon_s : ℝ)
    (h : alpha = 0 ∨ mu = 0 ∨ epsilon_b = 0 ∨ epsilon_s = 0)
    (l : List (ℕ × ℕ)) (init : ℝ) :
    l.foldl
      (fun ll bs =>
        if alpha = 0 ∨ mu = 0 ∨ epsilon_b = 0 ∨ epsilon_s = 0 then ll
        else ll + period_log_term alpha mu epsilon_b epsilon_s bs.1 bs.2)
      init = init := by
  have hf : (fun (ll : ℝ) (bs : ℕ × ℕ) =>
      if alpha = 0 ∨ mu = 0 ∨ epsilon_b = 0 ∨ epsilon_s = 0 then ll
      else ll + period_log_term alpha mu epsilon_b epsilon_s bs.1 bs.2) =
      fun ll _ => ll :=
    funext fun ll => funext fun bs => if_pos h
  rw [hf]
  induction l generalizing init with
  | nil => rfl
  | cons a t ih => exact ih init

/-- When no parameter is zero, the likelihood loop accumulates the sum of
the period log terms. -/
theorem nll_foldl_sum (alpha mu epsilon_b epsilon_s : ℝ)
    (h : ¬(alpha = 0 ∨ mu = 0 ∨ epsilon_b = 0 ∨ epsilon_s = 0))
    (l : List (ℕ × ℕ)) (init : ℝ) :
    l.foldl
      (fun ll bs =>
        if alpha = 0 ∨ mu = 0 ∨ epsilon_b = 0 ∨ epsilon_s = 0 then ll
        else ll + period_log_term alpha mu epsilon_b epsilon_s bs.1 bs.2)
      init =
      init + (l.map
        (fun bs => period_log_term alpha mu epsilon_b epsilon_s bs.1 bs.2)).sum := by
  have hf : (fun (ll : ℝ) (bs : ℕ × ℕ) =>
      if alpha = 0 ∨ mu = 0 ∨ epsilon_b = 0 ∨ epsilon_s = 0 then ll
      else ll + period_log_term alpha mu epsilon_b epsilon_s bs.1 bs.2) =
      fun ll bs => ll + period_log_term alpha mu epsilon_b epsilon_s bs.1 bs.2 :=
    funext fun ll => funext fun bs => if_neg h
  rw [hf]
  induction l generalizing init with
  | nil => simp
  | cons a t ih =>
    simp only [List.foldl_cons, List.map_cons, List.sum_cons]
    rw [ih]
    ring

/-- Unfolding equation of `neg_log_likelihood` at an explicit parameter
tuple. -/
theorem neg_log_likelihood_mk (alpha mu epsilon_b epsilon_s : ℝ)
    (buys sells : List ℕ) :
    neg_log_likelihood (alpha, mu, epsilon_b, epsilon_s) buys sells =
      -((buys.zip sells).foldl
          (fun ll bs =>
            if alpha = 0 ∨ mu = 0 ∨ epsilon_b = 0 ∨ epsilon_s = 0 then ll
            else ll + period_log_term alpha mu epsilon_b epsilon_s bs.1 bs.2)
          0) := rfl

/-- With a zero parameter the whole negative log-likelihood is zero. -/
theorem nll_eq_zero_of_zero_param (alpha mu epsilon_b epsilon_s : ℝ)
    (buys sells : List ℕ)
    (h : alpha = 0 ∨ mu = 0 ∨ epsilon_b = 0 ∨ epsilon_s = 0) :
    neg_log_likelihood (alpha, mu, epsilon_b, epsilon_s) buys sells = 0 := by
  rw [neg_log_likelihood_mk, nll_foldl_skip alpha mu epsilon_b epsilon_s h]
  exact neg_zero

/-! ## Claim theorems -/

/-- Claim C2: if any of alpha, mu, epsilon_b, epsilon_s equals exactly 0,
`neg_log_likelihood` evaluates no logarithm and no division for any
period: every period takes the skip branch and contributes exactly zero
to the sum, so the result is the (finite) real number
`-(sum of zeros) = 0` — no domain error can arise. -/
theorem neg_log_likelihood_degenerate_skip
    (alpha mu epsilon_b epsilon_s : ℝ) (buys sells : List ℕ)
    (h : alpha = 0 ∨ mu = 0 ∨ epsilon_b = 0 ∨ epsilon_s = 0) :
    neg_log_likelihood (alpha, mu, epsilon_b, epsilon_s) buys sells =
      -(((buys.zip sells).map (fun _ => (0 : ℝ))).sum) := by
  rw [nll_eq_zero_of_zero_param alpha mu epsilon_b epsilon_s buys sells h]
  simp

/-- Witness for C2 at alpha = 0, mu = epsilon_b = epsilon_s = 1,
buys = [5, 10], sells = [6, 9]. -/
theorem neg_log_likelihood_degenerate_skip_witness :
    ((0 : ℝ) = 0 ∨ (1 : ℝ) = 0 ∨ (1 : ℝ) = 0 ∨ (1 : ℝ) = 0) ∧
    neg_log_likelihood (0, 1, 1, 1) [5, 10] [6, 9] =
      -(((([5, 10] : List ℕ).zip [6, 9]).map (fun _ => (0 : ℝ))).sum) :=
  ⟨Or.inl rfl,
    neg_log_likelihood_degenerate_skip 0 1 1 1 [5, 10] [6, 9] (Or.inl rfl)⟩

/-- Claim C9: the zero-parameter guard in `neg_log_likelihood` does not
inspect the per-period counts, so with any parameter exactly zero the
function skips every period of every volume sequence and returns exactly
0, whatever the counts are. -/
theorem neg_log_likelihood_zero_param_all_skipped
    (alpha mu epsilon_b epsilon_s : ℝ)
    (h : alpha = 0 ∨ mu = 0 ∨ epsilon_b = 0 ∨ epsilon_s = 0) :
    ∀ buys sells : List ℕ,
      neg_log_likelihood (alpha, mu, epsilon_b, epsilon_s) buys sells = 0 :=
  fun buys sells =>
    nll_eq_zero_of_zero_param alpha mu epsilon_b epsilon_s buys sells h

/-- Witness for C9 at mu = 0 with two unrelated volume-sequence pairs. -/
theorem neg_log_likelihood_zero_param_all_skipped_witness :
    ((0.2 : ℝ) = 0 ∨ (0 : ℝ) = 0 ∨ (3 : ℝ) = 0 ∨ (4 : ℝ) = 0) ∧
    neg_log_likelihood (0.2, 0, 3, 4) [5, 10, 15] [6, 9, 14] = 0 ∧
    neg_log_likelihood (0.2, 0, 3, 4) [1000] [0] = 0 :=
  ⟨Or.inr (Or.inl rfl),
    neg_log_likelihood_zero_param_all_skipped 0.2 0 3 4
      (Or.inr (Or.inl rfl)) [5, 10, 15] [6, 9, 14],
    neg_log_likelihood_zero_param_all_skipped 0.2 0 3 4
      (Or.inr (Or.inl rfl)) [1000] [0]⟩

/-- Evaluation of `pin_ekop` given the parameter vector the optimizer
returns: the PIN formula applied to the fitted parameters. -/
theorem pin_ekop_eq (optimize : Optimizer) (buys sells : List ℕ)
    (alpha_hat mu_hat epsilon_b_hat epsilon_s_hat : ℝ)
    (hres : optimize (fun params => neg_log_likelihood params buys sells)
        params_init bnds =
      (alpha_hat, mu_hat, epsilon_b_hat, epsilon_s_hat)) :
    pin_ekop optimize buys sells =
      Except.ok (alpha_hat * mu_hat /
        (alpha_hat * mu_hat + epsilon_b_hat + epsilon_s_hat)) := by
  unfold pin_ekop
  rw [hres]

/-- `np.std` of the empty list evaluates to zero in the real-valued
embedding. -/
theorem np_std_nil : np_std [] = 0 := by
  simp [np_std, np_mean]

/-- Claim C1 counterexample: with buy volumes of length 3 and sell
volumes of length 2, `pin_ekop` does not raise `InvalidInputError`; the
source contains no length or emptiness check, so the call proceeds to the
optimizer (here a concrete optimizer standing for the single
`scipy.optimize.minimize` run) and returns an ordinary value. -/
theorem pin_ekop_unequal_no_error :
    pin_ekop (fun _ _ _ => (0.2, 1, 1, 1)) [5, 10, 15] [6, 9] ≠
      Except.error PinError.invalidInput := by
  rw [pin_ekop_eq (fun _ _ _ => (0.2, 1, 1, 1)) [5, 10, 15] [6, 9]
    0.2 1 1 1 rfl]
  simp

/-- Claim C1 (amended): `pin_ekop` performs no input validation at all:
for every optimizer and every pair of volume sequences — unequal-length
and empty pairs included — it returns an ordinary `Except.ok` value and
never `InvalidInputError` (`zip` silently truncates to the shorter
sequence). -/
theorem pin_ekop_no_input_validation :
    ∀ (optimize : Optimizer) (buys sells : List ℕ),
      ∃ r : ℝ, pin_ekop optimize buys sells = Except.ok r := by
  intro optimize buys sells
  rcases hres : optimize (fun params => neg_log_likelihood params buys sells)
      params_init bnds with ⟨a, m, eb, es⟩
  exact ⟨_, pin_ekop_eq optimize buys sells a m eb es hres⟩

/-- Claim C4: the probability `pin_ekop` returns is exactly
`alpha_hat * mu_hat / (alpha_hat * mu_hat + epsilon_b_hat + epsilon_s_hat)`
for the parameter vector produced by the optimization run; the raw ratio
is returned unconditionally, with no clamping to the interval from 0
to 1. -/
theorem pin_ekop_pin_formula (optimize : Optimizer) (buys sells : List ℕ) :
    pin_ekop optimize buys sells =
      Except.ok
        ((optimize (fun params => neg_log_likelihood params buys sells)
            params_init bnds).1 *
          (optimize (fun params => neg_log_likelihood params buys sells)
            params_init bnds).2.1 /
          ((optimize (fun params => neg_log_likelihood params buys sells)
              params_init bnds).1 *
            (optimize (fun params => neg_log_likelihood params buys sells)
              params_init bnds).2.1 +
            (optimize (fun params => neg_log_likelihood params buys sells)
              params_init bnds).2.2.1 +
            (optimize (fun params => neg_log_likelihood params buys sells)
              params_init bnds).2.2.2)) := by
  rcases hres : optimize (fun params => neg_log_likelihood params buys sells)
      params_init bnds with ⟨a, m, eb, es⟩
  rw [pin_ekop_eq optimize buys sells a m eb es hres]

/-- Claim C5 counterexample: an optimization run ending at the all-zero
parameter vector makes the fitted denominator zero, yet `pin_ekop` does
not raise `EstimationDegenerateError`: the source has no guard and simply
performs the division. -/
theorem pin_ekop_zero_denominator_no_error :
    ((0 : ℝ) * 0 + 0 + 0 = 0) ∧
    pin_ekop (fun _ _ _ => (0, 0, 0, 0)) [5, 10, 15] [6, 9, 14] ≠
      Except.error PinError.estimationDegenerate := by
  refine ⟨by norm_num, ?_⟩
  rw [pin_ekop_eq (fun _ _ _ => (0, 0, 0, 0)) [5, 10, 15] [6, 9, 14]
    0 0 0 0 rfl]
  simp

/-- Claim C5 (amended): when the fitted denominator
`alpha_hat * mu_hat + epsilon_b_hat + epsilon_s_hat` is zero after the
optimization run, `pin_ekop` raises nothing: it returns the unguarded
quotient (a division by zero, NaN in the floating-point source) and in
particular never `EstimationDegenerateError`. -/
theorem pin_ekop_degenerate_unguarded (optimize : Optimizer)
    (buys sells : List ℕ)
    (alpha_hat mu_hat epsilon_b_hat epsilon_s_hat : ℝ)
    (hres : optimize (fun params => neg_log_likelihood params buys sells)
        params_init bnds =
      (alpha_hat, mu_hat, epsilon_b_hat, epsilon_s_hat))
    (hdenom : alpha_hat * mu_hat + epsilon_b_hat + epsilon_s_hat = 0) :
    pin_ekop optimize buys sells =
      Except.ok (alpha_hat * mu_hat /
        (alpha_hat * mu_hat + epsilon_b_hat + epsilon_s_hat)) ∧
    ∀ e : PinError, pin_ekop optimize buys sells ≠ Except.error e := by
  refine ⟨pin_ekop_eq optimize buys sells _ _ _ _ hres, ?_⟩
  intro e
  rw [pin_ekop_eq optimize buys sells _ _ _ _ hres]
  simp

/-- Witness for C5 (amended) at the all-zero fitted vector. -/
theorem pin_ekop_degenerate_unguarded_witness :
    ((fun (_ : ParamVec → ℝ) (_ : ParamVec) (_ : Bnds) =>
        ((0 : ℝ), (0 : ℝ), (0 : ℝ), (0 : ℝ)))
        (fun params => neg_log_likelihood params [1] [2]) params_init bnds =
      ((0 : ℝ), (0 : ℝ), (0 : ℝ), (0 : ℝ))) ∧
    ((0 : ℝ) * 0 + 0 + 0 = 0) ∧
    (pin_ekop (fun _ _ _ => ((0 : ℝ), (0 : ℝ), (0 : ℝ), (0 : ℝ))) [1] [2] =
        Except.ok ((0 : ℝ) * 0 / ((0 : ℝ) * 0 + 0 + 0)) ∧
      ∀ e : PinError,
        pin_ekop (fun _ _ _ => ((0 : ℝ), (0 : ℝ), (0 : ℝ), (0 : ℝ))) [1] [2] ≠
          Except.error e) :=
  ⟨rfl, by norm_num,
    pin_ekop_degenerate_unguarded (fun _ _ _ => (0, 0, 0, 0)) [1] [2]
      0 0 0 0 rfl (by norm_num)⟩

/-- Claim C7: `pin_ekop` runs the optimizer exactly once, on the
likelihood closure for the given volumes, from the fixed initial guess
`(0.2, 1, 1, 1)` and with the box constraints `alpha` in `[0, 1]` and
`mu`, `epsilon_b`, `epsilon_s` in `[0, ∞)`: the output depends on the
optimizer only through that single evaluation (two optimizers agreeing
there give identical results — no retry or multi-start could distinguish
them), and the initial guess and bounds are the stated constants. -/
theorem pin_ekop_single_optimization (opt1 opt2 : Optimizer)
    (buys sells : List ℕ)
    (h : opt1 (fun params => neg_log_likelihood params buys sells)
        params_init bnds =
      opt2 (fun params => neg_log_likelihood params buys sells)
        params_init bnds) :
    pin_ekop opt1 buys sells = pin_ekop opt2 buys sells ∧
    params_init = (0.2, 1, 1, 1) ∧
    bnds = ((0, some 1), (0, none), (0, none), (0, none)) := by
  refine ⟨?_, rfl, rfl⟩
  unfold pin_ekop
  rw [h]

/-- Witness for C7: two syntactically different optimizers that agree on
the single probe point give identical estimates. -/
theorem pin_ekop_single_optimization_witness :
    ((fun (_ : ParamVec → ℝ) (_ : ParamVec) (_ : Bnds) =>
        ((0.3 : ℝ), (2 : ℝ), (3 : ℝ), (4 : ℝ)))
        (fun params => neg_log_likelihood params [5] [6]) params_init bnds =
      (fun (f : ParamVec → ℝ) (x : ParamVec) (b : Bnds) =>
        ((0.3 : ℝ), (2 : ℝ), (3 : ℝ), (4 : ℝ)))
        (fun params => neg_log_likelihood params [5] [6]) params_init bnds) ∧
    (pin_ekop (fun _ _ _ => ((0.3 : ℝ), (2 : ℝ), (3 : ℝ), (4 : ℝ))) [5] [6] =
        pin_ekop (fun f x b => ((0.3 : ℝ), (2 : ℝ), (3 : ℝ), (4 : ℝ))) [5] [6] ∧
      params_init = (0.2, 1, 1, 1) ∧
      bnds = ((0, some 1), (0, none), (0, none), (0, none))) :=
  ⟨rfl,
    pin_ekop_single_optimization
      (fun _ _ _ => (0.3, 2, 3, 4)) (fun f x b => (0.3, 2, 3, 4)) [5] [6] rfl⟩

/-- Claim C8: both functions are deterministic — they are pure functions
of their arguments (the embedding threads no state and the source reads
no mutable global), so identical parameter vectors and identical volume
sequences give identical scalars, and identical volumes with the same
optimizer give identical estimates. -/
theorem pin_measure_deterministic (params1 params2 : ParamVec)
    (optimize : Optimizer) (buys1 buys2 sells1 sells2 : List ℕ)
    (hp : params1 = params2) (hb : buys1 = buys2) (hs : sells1 = sells2) :
    neg_log_likelihood params1 buys1 sells1 =
      neg_log_likelihood params2 buys2 sells2 ∧
    pin_ekop optimize buys1 sells1 = pin_ekop optimize buys2 sells2 := by
  subst hp hb hs
  exact ⟨rfl, rfl⟩

/-- Witness for C8 on the repository's own test data. -/
theorem pin_measure_deterministic_witness :
    ((0.2, 1, 1, 1) : ParamVec) = (0.2, 1, 1, 1) ∧
    ([5, 10, 15] : List ℕ) = [5, 10, 15] ∧
    ([6, 9, 14] : List ℕ) = [6, 9, 14] ∧
    (neg_log_likelihood (0.2, 1, 1, 1) [5, 10, 15] [6, 9, 14] =
        neg_log_likelihood (0.2, 1, 1, 1) [5, 10, 15] [6, 9, 14] ∧
      pin_ekop (fun _ _ _ => (0.2, 1, 1, 1)) [5, 10, 15] [6, 9, 14] =
        pin_ekop (fun _ _ _ => (0.2, 1, 1, 1)) [5, 10, 15] [6, 9, 14]) :=
  ⟨rfl, rfl, rfl,
    pin_measure_deterministic (0.2, 1, 1, 1) (0.2, 1, 1, 1)
      (fun _ _ _ => (0.2, 1, 1, 1)) [5, 10, 15] [5, 10, 15]
      [6, 9, 14] [6, 9, 14] rfl rfl rfl⟩

/-- Claim C3: with all four parameters nonzero, the negative
log-likelihood is the negative of the sum, over the zipped periods, of
`log(alpha * (term1 * term2 + term3 * term4) + (1 - alpha) * (term3 * term2))`
with `term1 = exp(-(mu + epsilon_b)) * (mu + epsilon_b)^b / b!`,
`term2 = exp(-epsilon_s) * epsilon_s^s / s!`,
`term3 = exp(-epsilon_b) * epsilon_b^b / b!`,
`term4 = exp(-(mu + epsilon_s)) * (mu + epsilon_s)^s / s!`, the
factorials computed as the exponential of the log-gamma function. -/
theorem neg_log_likelihood_formula
    (alpha mu epsilon_b epsilon_s : ℝ) (buys sells : List ℕ)
    (hnz : ¬(alpha = 0 ∨ mu = 0 ∨ epsilon_b = 0 ∨ epsilon_s = 0))
    (hlen : buys.length = sells.length) :
    neg_log_likelihood (alpha, mu, epsilon_b, epsilon_s) buys sells =
      -(((buys.zip sells).map (fun bs =>
        Real.log (alpha *
          ((Real.exp (-(mu + epsilon_b)) * (mu + epsilon_b) ^ bs.1 /
              Real.exp (Real.log (Real.Gamma ((bs.1 : ℝ) + 1)))) *
            (Real.exp (-epsilon_s) * epsilon_s ^ bs.2 /
              Real.exp (Real.log (Real.Gamma ((bs.2 : ℝ) + 1)))) +
            (Real.exp (-epsilon_b) * epsilon_b ^ bs.1 /
              Real.exp (Real.log (Real.Gamma ((bs.1 : ℝ) + 1)))) *
            (Real.exp (-(mu + epsilon_s)) * (mu + epsilon_s) ^ bs.2 /
              Real.exp (Real.log (Real.Gamma ((bs.2 : ℝ) + 1))))) +
          (1 - alpha) *
            ((Real.exp (-epsilon_b) * epsilon_b ^ bs.1 /
                Real.exp (Real.log (Real.Gamma ((bs.1 : ℝ) + 1)))) *
              (Real.exp (-epsilon_s) * epsilon_s ^ bs.2 /
                Real.exp (Real.log (Real.Gamma ((bs.2 : ℝ) + 1)))))))).sum) := by
  rw [neg_log_likelihood_mk,
    nll_foldl_sum alpha mu epsilon_b epsilon_s hnz, zero_add]
  have hma : -(mu + epsilon_b) = -mu - epsilon_b := by ring
  have hms : -(mu + epsilon_s) = -mu - epsilon_s := by ring
  rw [hma, hms]
  rfl

/-- Witness for C3 at `(0.2, 2, 3, 5)` with buys `[5]`, sells `[6]`. -/
theorem neg_log_likelihood_formula_witness :
    ¬((0.2 : ℝ) = 0 ∨ (2 : ℝ) = 0 ∨ (3 : ℝ) = 0 ∨ (5 : ℝ) = 0) ∧
    ([5] : List ℕ).length = ([6] : List ℕ).length ∧
    neg_log_likelihood (0.2, 2, 3, 5) [5] [6] =
      -(((([5] : List ℕ).zip ([6] : List ℕ)).map (fun bs =>
        Real.log ((0.2 : ℝ) *
          ((Real.exp (-((2 : ℝ) + 3)) * ((2 : ℝ) + 3) ^ bs.1 /
              Real.exp (Real.log (Real.Gamma ((bs.1 : ℝ) + 1)))) *
            (Real.exp (-(5 : ℝ)) * (5 : ℝ) ^ bs.2 /
              Real.exp (Real.log (Real.Gamma ((bs.2 : ℝ) + 1)))) +
            (Real.exp (-(3 : ℝ)) * (3 : ℝ) ^ bs.1 /
              Real.exp (Real.log (Real.Gamma ((bs.1 : ℝ) + 1)))) *
            (Real.exp (-((2 : ℝ) + 5)) * ((2 : ℝ) + 5) ^ bs.2 /
              Real.exp (Real.log (Real.Gamma ((bs.2 : ℝ) + 1))))) +
          (1 - (0.2 : ℝ)) *
            ((Real.exp (-(3 : ℝ)) * (3 : ℝ) ^ bs.1 /
                Real.exp (Real.log (Real.Gamma ((bs.1 : ℝ) + 1)))) *
              (Real.exp (-(5 : ℝ)) * (5 : ℝ) ^ bs.2 /
                Real.exp (Real.log (Real.Gamma ((bs.2 : ℝ) + 1)))))))).sum) :=
  ⟨by norm_num, rfl,
    neg_log_likelihood_formula 0.2 2 3 5 [5] [6] (by norm_num) rfl⟩

/-- Claim C10: `cagr`, `roi` and `sharpe_ratio` never raise to the
caller: every call produces either a float or an error-message string,
and on the invalid inputs (non-positive start/end/periods, zero cost,
zero standard deviation of the returns) the internally raised exception
is caught and rendered as the corresponding descriptive message. -/
theorem investment_metrics_no_raise :
    (∀ start_value end_value periods : ℝ,
      (∃ x, cagr start_value end_value periods = CalcResult.val x) ∨
      (∃ m, cagr start_value end_value periods = CalcResult.err m)) ∧
    (∀ start_value end_value periods : ℝ,
      start_value ≤ 0 ∨ end_value ≤ 0 ∨ periods ≤ 0 →
      cagr start_value end_value periods = CalcResult.err cagr_error_message) ∧
    (∀ gain cost : ℝ,
      (∃ x, roi gain cost = CalcResult.val x) ∨
      (∃ m, roi gain cost = CalcResult.err m)) ∧
    (∀ gain : ℝ, roi gain 0 = CalcResult.err roi_error_message) ∧
    (∀ (returns : List ℝ) (risk_free_rate : ℝ),
      (∃ x, sharpe_ratio returns risk_free_rate = CalcResult.val x) ∨
      (∃ m, sharpe_ratio returns risk_free_rate = CalcResult.err m)) ∧
    (∀ (returns : List ℝ) (risk_free_rate : ℝ), np_std returns = 0 →
      sharpe_ratio returns risk_free_rate = CalcResult.err sharpe_error_message) := by
  refine ⟨?_, ?_, ?_, ?_, ?_, ?_⟩
  · intro s e p
    unfold cagr
    split
    · exact Or.inr ⟨_, rfl⟩
    · exact Or.inl ⟨_, rfl⟩
  · intro s e p h
    unfold cagr
    rw [if_pos h]
  · intro g c
    unfold roi
    split
    · exact Or.inr ⟨_, rfl⟩
    · exact Or.inl ⟨_, rfl⟩
  · intro g
    unfold roi
    rw [if_pos rfl]
  · intro rs r
    unfold sharpe_ratio
    dsimp only
    split
    · exact Or.inr ⟨_, rfl⟩
    · exact Or.inl ⟨_, rfl⟩
  · intro rs r h
    unfold sharpe_ratio
    dsimp only
    rw [if_pos h]

/-- Witness for C10 on the invalid inputs of each metric. -/
theorem investment_metrics_no_raise_witness :
    ((0 : ℝ) ≤ 0 ∨ (1 : ℝ) ≤ 0 ∨ (1 : ℝ) ≤ 0) ∧
    cagr 0 1 1 = CalcResult.err cagr_error_message ∧
    roi 1500 0 = CalcResult.err roi_error_message ∧
    np_std [] = 0 ∧
    sharpe_ratio [] 0.01 = CalcResult.err sharpe_error_message :=
  ⟨Or.inl le_rfl,
    investment_metrics_no_raise.2.1 0 1 1 (Or.inl le_rfl),
    investment_metrics_no_raise.2.2.2.1 1500,
    np_std_nil,
    investment_metrics_no_raise.2.2.2.2.2 [] 0.01 np_std_nil⟩
